import Mathlib

/-!
Verification of the Stepik video downloader core.

Shallow embedding of the two source modules:

* `stepik_dispatcher.py` — authentication (`StepikDispatcher.__init__`) and the
  resource dispatcher (`StepikDispatcher.get_resources_list`) with its
  pagination recursion and HTTP-431 batch-splitting recovery.
* `downloader.py` — the hierarchy resolver
  (`get_course_videos_urls_by_section`) and the quality-selection loop of
  `main`.

Network I/O is modelled by a server oracle `Server α : List Int → Nat → Resp α`
mapping an id list and a page number to the server's response.  The dispatcher's
two mutually nested recursions (pagination and batch splitting) are not
structurally terminating, so they are embedded with an explicit fuel parameter;
`none` means the fuel ran out before the recursion finished (i.e. the Python
recursion would still be running at that depth).
-/

namespace Stepik

/-- A parsed server response to `GET /api/{resource}?ids[]=...&page=n`:
either HTTP 200 with the resource list and the `meta.has_next` flag,
HTTP 431 (request too large), or any other status code. -/
inductive Resp (α : Type) where
  | ok (items : List α) (hasNext : Bool)
  | tooLarge
  | err (code : Nat)
deriving DecidableEq

/-- The server oracle: id list and page number to response. -/
def Server (α : Type) : Type := List Int → Nat → Resp α

/-- Whether a response is the HTTP 431 (large header) response. -/
def Resp.isTooLarge {α : Type} : Resp α → Bool
  | .tooLarge => true
  | _ => false

/-- The error raised by `get_resources_list` on a non-200, non-431 status
(`StepikDispatcher.ResourceAcquisitionFailure`), carrying the resource type
and the offending status code in its message. -/
inductive DispatchError where
  | resourceAcquisitionFailure (api_resource : String) (code : Nat)
deriving DecidableEq

/-- Embedding of `StepikDispatcher.get_resources_list` (stepik_dispatcher.py,
lines 57-71).  On 200 it returns the page's items, recursing to `page + 1`
(same ids) while `meta.has_next` is true and appending the recursive result
after the current page's items; on 431 it splits `ids` into
`ids[:len(ids)//2]` and `ids[len(ids)//2:]`, fetches each half recursively at
the default page 1, and concatenates left before right; on any other status it
raises `ResourceAcquisitionFailure`.  `fuel` bounds the recursion depth;
`none` is returned when the bound is hit. -/
def get_resources_list {α : Type} (serve : Server α) :
    Nat → String → List Int → Nat → Option (Except DispatchError (List α))
  | 0, _, _, _ => none
  | fuel + 1, api_resource, ids, page =>
    match serve ids page with
    | .ok items hasNext =>
      if hasNext then
        match get_resources_list serve fuel api_resource ids (page + 1) with
        | none => none
        | some (.error e) => some (.error e)
        | some (.ok rest) => some (.ok (items ++ rest))
      else
        some (.ok items)
    | .tooLarge =>
      match get_resources_list serve fuel api_resource (ids.take (ids.length / 2)) 1 with
      | none => none
      | some (.error e) => some (.error e)
      | some (.ok left) =>
        match get_resources_list serve fuel api_resource (ids.drop (ids.length / 2)) 1 with
        | none => none
        | some (.error e) => some (.error e)
        | some (.ok right) => some (.ok (left ++ right))
    | .err c => some (.error (.resourceAcquisitionFailure api_resource c))

/-- Sequential combination of two fetch results exactly as the `+` on line
67-68 of stepik_dispatcher.py behaves under Python exception propagation:
the left result's error (or non-termination) wins, then the right's, and two
successes concatenate left before right. -/
def append_fetch_results {α : Type} :
    Option (Except DispatchError (List α)) → Option (Except DispatchError (List α)) →
    Option (Except DispatchError (List α))
  | none, _ => none
  | some (.error e), _ => some (.error e)
  | some (.ok _), none => none
  | some (.ok _), some (.error e) => some (.error e)
  | some (.ok l), some (.ok r) => some (.ok (l ++ r))

/-- The batch-splitting skeleton of `get_resources_list`: the list of atomic
sub-batches (in left-to-right order) into which an id list is split by the
431-recovery recursion, each atomic sub-batch being one whose first request no
longer answers 431.  Fuel-bounded like the function it abstracts. -/
def atomic_batches {α : Type} (serve : Server α) : Nat → List Int → Option (List (List Int))
  | 0, _ => none
  | fuel + 1, ids =>
    match serve ids 1 with
    | .tooLarge =>
      match atomic_batches serve fuel (ids.take (ids.length / 2)),
            atomic_batches serve fuel (ids.drop (ids.length / 2)) with
      | some l, some r => some (l ++ r)
      | _, _ => none
    | _ => some [ids]

/-- Pure pagination walk for a single batch: collect the pages of `ids`
starting at `page`, following `has_next`, with no 431 handling (431 or any
error status yields `none` here).  This is what `get_resources_list` does on a
batch whose requests all answer 200. -/
def collect_pages {α : Type} (serve : Server α) : Nat → List Int → Nat → Option (List α)
  | 0, _, _ => none
  | fuel + 1, ids, page =>
    match serve ids page with
    | .ok items hasNext =>
      if hasNext then
        match collect_pages serve fuel ids (page + 1) with
        | none => none
        | some rest => some (items ++ rest)
      else some items
    | _ => none

/-- Collect the full paginated results of a list of batches, in order. -/
def collect_all {α : Type} (serve : Server α) (fuel : Nat) :
    List (List Int) → Option (List (List α))
  | [] => some []
  | b :: bs =>
    match collect_pages serve fuel b 1, collect_all serve fuel bs with
    | some r, some rs => some (r :: rs)
    | _, _ => none

/-- The 431 status is triggered by the size of the id list in the request
header, so whether a given id list answers 431 does not depend on the
requested page number. -/
def uniform431 {α : Type} (serve : Server α) : Prop :=
  ∀ ids page, (serve ids page).isTooLarge = (serve ids 1).isTooLarge

/-! ## Authenticator (`StepikDispatcher.__init__`, stepik_dispatcher.py 30-41) -/

/-- The two exception classes raised by `StepikDispatcher.__init__`, with the
message each carries in the source. -/
inductive AuthError where
  | wrongCredentials (msg : String)
  | authenticationFailure (msg : String)
deriving DecidableEq

/-- Embedding of the `match resp.status_code` in `StepikDispatcher.__init__`
(stepik_dispatcher.py, lines 35-41).  The token-endpoint response is given as
its status code and its parsed JSON body (an association list of string
fields).  On 200 the `access_token` field is read (a missing field is Python's
`KeyError`, modelled as `none`); on 401 `WrongCredentials` is raised; on any
other status `AuthenticationFailure` is raised carrying the status code. -/
def authenticate (status_code : Nat) (body : List (String × String)) :
    Option (Except AuthError String) :=
  match status_code with
  | 200 =>
    match body.lookup "access_token" with
    | some token => some (.ok token)
    | none => none
  | 401 => some (.error (.wrongCredentials "Wrong client_id or client_secret"))
  | c => some (.error (.authenticationFailure ("Server responded with code " ++ toString c)))

/-! ## Data model of the hierarchy resolver (downloader.py) -/

/-- One entry of a video block's `urls` list: a `{"quality": ..., "url": ...}`
record. -/
structure QualityRecord where
  quality : String
  url : String
deriving DecidableEq

/-- A step's video block: its ordered quality/URL list (`video['urls']`). -/
structure VideoBlock where
  urls : List QualityRecord
deriving DecidableEq

/-- A step's `block` field.  `video` is `none` when the block's video field is
absent or falsy (the `step_data['block']['video']` truthiness test of
downloader.py line 41). -/
structure Block where
  video : Option VideoBlock
deriving DecidableEq

/-- A parsed step resource, as consumed by the resolver. -/
structure StepData where
  block : Block
deriving DecidableEq

/-- The `StepikVideoUrl` dataclass of downloader.py (lines 17-19). -/
structure StepikVideoUrl where
  available_qualities : List QualityRecord
deriving DecidableEq

/-- `step_has_video` (downloader.py, lines 40-41): the truthiness of
`step_data['block']['video']`. -/
def step_has_video (step_data : StepData) : Bool :=
  step_data.block.video.isSome

/-- Lines 43-44 of downloader.py: keep the blocks of steps that have a video,
then wrap each kept block's `video['urls']` in a `StepikVideoUrl`, preserving
step order.  (For a filtered-in block `video` is necessarily `some`, so the
`none` branch of the match is unreachable.) -/
def extract_week_videos (all_steps_data : List StepData) : List StepikVideoUrl :=
  let only_video_blocks := (all_steps_data.filter fun s => step_has_video s).map (·.block)
  only_video_blocks.map fun block =>
    ⟨match block.video with
      | some v => v.urls
      | none => []⟩

/-- The dispatcher interface consumed by `get_course_videos_urls_by_section`:
the five typed accessors of `StepikDispatcher` (stepik_dispatcher.py, lines
73-90).  Each may fail with the dispatcher's `ResourceAcquisitionFailure`. -/
structure ResolverDispatcher where
  get_list_of_week_ids : Int → Except DispatchError (List Int)
  get_lists_of_units : List Int → Except DispatchError (List (List Int))
  get_list_of_lessons_ids : List Int → Except DispatchError (List Int)
  get_lists_of_step_ids : List Int → Except DispatchError (List (List Int))
  get_list_of_step_data : List Int → Except DispatchError (List StepData)

/-- An error escaping `get_course_videos_urls_by_section`: a propagated
dispatcher exception, or Python's `IndexError` on `all_unit_ids[week_num - 1]`
when the unit-list vector is shorter than the week list. -/
inductive RunError where
  | dispatch (e : DispatchError)
  | indexError
deriving DecidableEq

/-- The body of one retained loop iteration of
`get_course_videos_urls_by_section` (downloader.py, lines 34-44): units →
lesson ids → nested step ids → flattened step ids → step data → video list. -/
def resolve_week (d : ResolverDispatcher) (unit_ids : List Int) :
    Except DispatchError (List StepikVideoUrl) :=
  match d.get_list_of_lessons_ids unit_ids with
  | .error e => .error e
  | .ok all_lesson_ids =>
    match d.get_lists_of_step_ids all_lesson_ids with
    | .error e => .error e
    | .ok nested_step_ids =>
      match d.get_list_of_step_data nested_step_ids.flatten with
      | .error e => .error e
      | .ok all_steps_data => .ok (extract_week_videos all_steps_data)

/-- The `continue` condition of downloader.py line 31:
`only_from_week_number is not None and week_num != only_from_week_number`. -/
def week_filtered_out (only_from_week_number : Option Int) (week_num : Nat) : Bool :=
  match only_from_week_number with
  | some w => (week_num : Int) != w
  | none => false

/-- The `for week_num in range(1, len(week_ids) + 1)` loop of downloader.py
(lines 30-46), over the explicit list of week numbers.  Filtered-out weeks are
skipped; a retained week is resolved and its video list appended; a raised
exception aborts the loop. -/
def week_loop (d : ResolverDispatcher) (all_unit_ids : List (List Int))
    (only_from_week_number : Option Int) :
    List Nat → Except RunError (List (List StepikVideoUrl))
  | [] => .ok []
  | week_num :: rest =>
    if week_filtered_out only_from_week_number week_num then
      week_loop d all_unit_ids only_from_week_number rest
    else
      match all_unit_ids[week_num - 1]? with
      | none => .error .indexError
      | some unit_ids =>
        match resolve_week d unit_ids with
        | .error e => .error (.dispatch e)
        | .ok week_videos =>
          match week_loop d all_unit_ids only_from_week_number rest with
          | .error e => .error e
          | .ok tail => .ok (week_videos :: tail)

/-- Embedding of `get_course_videos_urls_by_section` (downloader.py,
lines 22-47). -/
def get_course_videos_urls_by_section (d : ResolverDispatcher) (course_id : Int)
    (only_from_week_number : Option Int) :
    Except RunError (List (List StepikVideoUrl)) :=
  match d.get_list_of_week_ids course_id with
  | .error e => .error (.dispatch e)
  | .ok week_ids =>
    match d.get_lists_of_units week_ids with
    | .error e => .error (.dispatch e)
    | .ok all_unit_ids =>
      week_loop d all_unit_ids only_from_week_number (List.range' 1 week_ids.length)

/-! ## Quality selector (`main`, downloader.py 122-141) -/

/-- The warning composed on line 136 of downloader.py. -/
def quality_warning (quality : String) : String :=
  "The requested quality = " ++ quality ++ " is not available!"

/-- The per-video result of the selection loop: the chosen URL and the
optional fallback warning (`{'url': video_link, 'msg': msg}`, line 141). -/
structure SelectedLink where
  url : String
  msg : Option String
deriving DecidableEq

/-- Embedding of the quality-selection loop of `main` (downloader.py, lines
122-141): scan `available_qualities` for the first record whose `quality`
equals the requested one and take its `url` (no warning); if none matches,
fall back to `available_qualities[0]['url']` with the warning message.  On an
empty quality list the fallback indexing `available_qualities[0]` is Python's
uncaught `IndexError`, modelled as `none`. -/
def pick_video_link (available_qualities : List QualityRecord) (quality : String) :
    Option SelectedLink :=
  match available_qualities.find? (fun link => link.quality == quality) with
  | some link => some ⟨link.url, none⟩
  | none =>
    match available_qualities with
    | [] => none
    | first :: _ => some ⟨first.url, some (quality_warning quality)⟩

/-! ## Concrete instances used to exercise the theorems -/

/-- A server for which batches of two or more ids answer HTTP 431 while
smaller batches answer one 200 page carrying the ids themselves. -/
def splitServer : Server Nat := fun ids _ =>
  match ids with
  | [] => .ok [] false
  | [i] => .ok [i.toNat] false
  | _ => .tooLarge

/-- A three-page server: pages 1 and 2 report a next page, page 3 is last. -/
def pageServer : Server Nat := fun _ page =>
  match page with
  | 1 => .ok [1] true
  | 2 => .ok [2] true
  | _ => .ok [3] false

/-- A server that always answers HTTP 404. -/
def errServer : Server Nat := fun _ _ => .err 404

/-- A sample quality record list and video step used by the witnesses. -/
def sampleVideoStep : StepData :=
  ⟨⟨some ⟨[⟨"720", "U"⟩]⟩⟩⟩

/-- A two-week course dispatcher: week 1 (units `[100]`) has one video step,
week 2 (units `[200]`) has a step list with no videos. -/
def twoWeekDispatcher : ResolverDispatcher where
  get_list_of_week_ids := fun _ => .ok [10, 20]
  get_lists_of_units := fun _ => .ok [[100], [200]]
  get_list_of_lessons_ids := fun unit_ids => .ok unit_ids
  get_lists_of_step_ids := fun lesson_ids => .ok [lesson_ids]
  get_list_of_step_data := fun step_ids =>
    if step_ids = [100] then .ok [sampleVideoStep] else .ok []

/-- Like `twoWeekDispatcher`, but fetching week 2's step data fails with a
`ResourceAcquisitionFailure`. -/
def failingDispatcher : ResolverDispatcher where
  get_list_of_week_ids := fun _ => .ok [10, 20]
  get_lists_of_units := fun _ => .ok [[100], [200]]
  get_list_of_lessons_ids := fun unit_ids => .ok unit_ids
  get_lists_of_step_ids := fun lesson_ids => .ok [lesson_ids]
  get_list_of_step_data := fun step_ids =>
    if step_ids = [200] then .error (.resourceAcquisitionFailure "steps" 404) else .ok []

/-! ## Dispatcher lemmas -/

/-- Fuel monotonicity for the pagination walk: a successful collection stays
the same when the depth bound grows. -/
theorem collect_pages_mono {α : Type} (serve : Server α) (fuel : Nat) :
    ∀ fuel' ids page r, fuel ≤ fuel' →
      collect_pages serve fuel ids page = some r →
      collect_pages serve fuel' ids page = some r := by
  induction fuel with
  | zero =>
    intro fuel' ids page r _ h
    simp [collect_pages] at h
  | succ f ih =>
    intro fuel' ids page r hle h
    obtain ⟨f', rfl⟩ : ∃ f', fuel' = f' + 1 := ⟨fuel' - 1, by omega⟩
    rw [collect_pages] at h ⊢
    cases hs : serve ids page with
    | ok items hasNext =>
      rw [hs] at h
      cases hasNext with
      | false => simpa using h
      | true =>
        simp only [if_pos rfl] at h ⊢
        cases hr : collect_pages serve f ids (page + 1) with
        | none => rw [hr] at h; exact absurd h (by simp)
        | some rest =>
          rw [hr] at h
          rw [ih f' ids (page + 1) rest (by omega) hr]
          exact h
    | tooLarge => rw [hs] at h; exact absurd h (by simp)
    | err c => rw [hs] at h; exact absurd h (by simp)

/-- Fuel monotonicity for collecting a list of batches. -/
theorem collect_all_mono {α : Type} (serve : Server α) :
    ∀ (bs : List (List Int)) fuel fuel' rss, fuel ≤ fuel' →
      collect_all serve fuel bs = some rss →
      collect_all serve fuel' bs = some rss := by
  intro bs
  induction bs with
  | nil => intro fuel fuel' rss _ h; simpa [collect_all] using h
  | cons b rest ih =>
    intro fuel fuel' rss hle h
    rw [collect_all] at h ⊢
    cases hr : collect_pages serve fuel b 1 with
    | none => rw [hr] at h; exact absurd h (by simp)
    | some r =>
      rw [hr] at h
      cases hrest : collect_all serve fuel rest with
      | none => rw [hrest] at h; exact absurd h (by simp)
      | some rs =>
        rw [hrest] at h
        rw [collect_pages_mono serve fuel fuel' b 1 r hle hr, ih fuel fuel' rs hle hrest]
        exact h

/-- Collecting an appended batch list concatenates the collections. -/
theorem collect_all_append {α : Type} (serve : Server α) (fuel : Nat) :
    ∀ (l₁ l₂ : List (List Int)) r₁ r₂,
      collect_all serve fuel l₁ = some r₁ →
      collect_all serve fuel l₂ = some r₂ →
      collect_all serve fuel (l₁ ++ l₂) = some (r₁ ++ r₂) := by
  intro l₁
  induction l₁ with
  | nil =>
    intro l₂ r₁ r₂ h1 h2
    simp only [collect_all] at h1
    cases h1
    simpa using h2
  | cons b rest ih =>
    intro l₂ r₁ r₂ h1 h2
    rw [collect_all] at h1
    cases hb : collect_pages serve fuel b 1 with
    | none => rw [hb] at h1; exact absurd h1 (by simp)
    | some r =>
      rw [hb] at h1
      cases hrest : collect_all serve fuel rest with
      | none => rw [hrest] at h1; exact absurd h1 (by simp)
      | some rs =>
        rw [hrest] at h1
        cases h1
        rw [List.cons_append, collect_all, hb, ih l₂ rs r₂ hrest h2]
        rfl

/-- On a batch whose first request is not answered 431, a successful
`get_resources_list` call is exactly the pure pagination walk. -/
theorem collect_pages_of_get {α : Type} (serve : Server α) (hu : uniform431 serve)
    (api_resource : String) :
    ∀ fuel ids page res, (serve ids 1).isTooLarge = false →
      get_resources_list serve fuel api_resource ids page = some (.ok res) →
      collect_pages serve fuel ids page = some res := by
  intro fuel
  induction fuel with
  | zero =>
    intro ids page res _ h
    simp [get_resources_list] at h
  | succ f ih =>
    intro ids page res htl h
    rw [get_resources_list] at h
    rw [collect_pages]
    cases hs : serve ids page with
    | ok items hasNext =>
      rw [hs] at h
      cases hasNext with
      | false =>
        simp at h ⊢
        exact h
      | true =>
        cases hr : get_resources_list serve f api_resource ids (page + 1) with
        | none => rw [hr] at h; simp at h
        | some er =>
          rw [hr] at h
          cases er with
          | error e => simp at h
          | ok rest =>
            rw [ih ids (page + 1) rest htl hr]
            simp at h ⊢
            exact h
    | tooLarge =>
      exact absurd (hu ids page) (by rw [hs, htl]; simp [Resp.isTooLarge])
    | err c => rw [hs] at h; exact absurd h (by simp)

/-- The batch-splitting recursion completes within fuel `ids.length + 1`
whenever the 431 status only ever arises for id lists of at least two
elements (the spec's trigger condition: the id list is too long to fit the
request). -/
theorem atomic_batches_total {α : Type} (serve : Server α)
    (htl : ∀ ids page, (serve ids page).isTooLarge = true → 2 ≤ ids.length) :
    ∀ fuel ids, ids.length < fuel → ∃ bs, atomic_batches serve fuel ids = some bs := by
  intro fuel
  induction fuel with
  | zero => intro ids h; omega
  | succ f ih =>
    intro ids hlen
    rw [atomic_batches]
    cases hs : serve ids 1 with
    | ok items hasNext => exact ⟨[ids], rfl⟩
    | err c => exact ⟨[ids], rfl⟩
    | tooLarge =>
      have h2 : 2 ≤ ids.length := htl ids 1 (by rw [hs]; rfl)
      obtain ⟨bl, hbl⟩ := ih (ids.take (ids.length / 2))
        (by rw [List.length_take]; omega)
      obtain ⟨br, hbr⟩ := ih (ids.drop (ids.length / 2))
        (by rw [List.length_drop]; omega)
      exact ⟨bl ++ br, by rw [hbl, hbr]⟩

/-- Any successful `get_resources_list` call decomposes as the left-to-right
concatenation of the paginated fetches of its atomic sub-batches, regardless
of how the 431 splits nested. -/
theorem get_atomic_decomp {α : Type} (serve : Server α) (hu : uniform431 serve)
    (api_resource : String) :
    ∀ fuel ids res,
      get_resources_list serve fuel api_resource ids 1 = some (.ok res) →
      ∃ bs rss, atomic_batches serve fuel ids = some bs ∧
        collect_all serve fuel bs = some rss ∧ res = rss.flatten := by
  intro fuel
  induction fuel with
  | zero => intro ids res h; simp [get_resources_list] at h
  | succ f ih =>
    intro ids res h
    cases hs : serve ids 1 with
    | ok items hasNext =>
      refine ⟨[ids], [res], ?_, ?_, by simp⟩
      · rw [atomic_batches, hs]
      · have hcp : collect_pages serve (f + 1) ids 1 = some res :=
          collect_pages_of_get serve hu api_resource (f + 1) ids 1 res
            (by rw [hs]; rfl) h
        rw [collect_all, hcp, collect_all]
    | err c => rw [get_resources_list, hs] at h; simp at h
    | tooLarge =>
      rw [get_resources_list, hs] at h
      cases hl : get_resources_list serve f api_resource (ids.take (ids.length / 2)) 1 with
      | none => rw [hl] at h; simp at h
      | some el =>
        rw [hl] at h
        cases el with
        | error e => simp at h
        | ok left =>
          cases hr : get_resources_list serve f api_resource (ids.drop (ids.length / 2)) 1 with
          | none => rw [hr] at h; simp at h
          | some er =>
            rw [hr] at h
            cases er with
            | error e => simp at h
            | ok right =>
              simp only [Option.some.injEq, Except.ok.injEq] at h
              obtain ⟨bsl, rssl, hbl, hcl, hfl⟩ := ih (ids.take (ids.length / 2)) left hl
              obtain ⟨bsr, rssr, hbr, hcr, hfr⟩ := ih (ids.drop (ids.length / 2)) right hr
              refine ⟨bsl ++ bsr, rssl ++ rssr, ?_, ?_, ?_⟩
              · rw [atomic_batches, hs, hbl, hbr]
              · exact collect_all_append serve (f + 1) bsl bsr rssl rssr
                  (collect_all_mono serve bsl f (f + 1) rssl (by omega) hcl)
                  (collect_all_mono serve bsr f (f + 1) rssr (by omega) hcr)
              · rw [← h, hfl, hfr, List.flatten_append]

/-! ## Resolver loop lemmas -/

/-- When every listed week resolves, the loop returns one video list per week
number, in order. -/
theorem week_loop_all_ok (d : ResolverDispatcher) (all_unit_ids : List (List Int))
    (filt : Option Int) (vs : Nat → List StepikVideoUrl) :
    ∀ l : List Nat,
      (∀ wn ∈ l, week_filtered_out filt wn = false) →
      (∀ wn ∈ l, ∃ u, all_unit_ids[wn - 1]? = some u ∧ resolve_week d u = .ok (vs wn)) →
      week_loop d all_unit_ids filt l = .ok (l.map vs) := by
  intro l
  induction l with
  | nil => intro _ _; rfl
  | cons wn rest ih =>
    intro hf hr
    obtain ⟨u, hu, hv⟩ := hr wn (by simp)
    rw [week_loop, hf wn (by simp)]
    simp only [Bool.false_eq_true, if_false, hu, hv,
      ih (fun x hx => hf x (by simp [hx])) (fun x hx => hr x (by simp [hx]))]
    rfl

/-- A run of filtered-out week numbers contributes nothing to the loop. -/
theorem week_loop_skip (d : ResolverDispatcher) (all_unit_ids : List (List Int))
    (filt : Option Int) :
    ∀ l₁ l₂ : List Nat, (∀ wn ∈ l₁, week_filtered_out filt wn = true) →
      week_loop d all_unit_ids filt (l₁ ++ l₂) = week_loop d all_unit_ids filt l₂ := by
  intro l₁
  induction l₁ with
  | nil => intro l₂ _; rfl
  | cons wn rest ih =>
    intro l₂ hf
    rw [List.cons_append, week_loop, hf wn (by simp), if_pos rfl]
    exact ih l₂ (fun x hx => hf x (by simp [hx]))

/-- If every listed week is filtered out, the loop returns the empty output. -/
theorem week_loop_all_skipped (d : ResolverDispatcher) (all_unit_ids : List (List Int))
    (filt : Option Int) :
    ∀ l : List Nat, (∀ wn ∈ l, week_filtered_out filt wn = true) →
      week_loop d all_unit_ids filt l = .ok [] := by
  intro l hf
  have h := week_loop_skip d all_unit_ids filt l [] hf
  rw [List.append_nil] at h
  exact h

/-- With no week filter, a prefix of successfully resolving weeks does not
mask an error arising later in the loop: the error still aborts the loop. -/
theorem week_loop_none_append_error (d : ResolverDispatcher)
    (all_unit_ids : List (List Int)) :
    ∀ (l₁ l₂ : List Nat) (e : RunError),
      (∀ wn ∈ l₁, ∃ u v, all_unit_ids[wn - 1]? = some u ∧ resolve_week d u = .ok v) →
      week_loop d all_unit_ids none l₂ = .error e →
      week_loop d all_unit_ids none (l₁ ++ l₂) = .error e := by
  intro l₁
  induction l₁ with
  | nil => intro l₂ e _ h; exact h
  | cons wn rest ih =>
    intro l₂ e hok h
    obtain ⟨u, v, hu, hv⟩ := hok wn (by simp)
    rw [List.cons_append, week_loop]
    simp only [week_filtered_out, Bool.false_eq_true, if_false, hu, hv,
      ih l₂ e (fun x hx => hok x (by simp [hx])) h]

/-- Splitting the 1-based week-number range at a retained week `j`. -/
theorem range'_split_at (j k : Nat) (hj1 : 1 ≤ j) (hjk : j ≤ k) :
    List.range' 1 k = List.range' 1 (j - 1) ++ (j :: List.range' (j + 1) (k - j)) := by
  have key := List.range'_append_1 1 (j - 1) (k - j + 1)
  rw [(by omega : 1 + (j - 1) = j)] at key
  rw [(by omega : k - j + 1 + (j - 1) = k)] at key
  rw [← key, List.range'_succ]

/-- For `splitServer`, a 431 answer implies the batch has at least two ids. -/
theorem splitServer_431_only_large :
    ∀ ids page, ((splitServer ids page).isTooLarge = true) → 2 ≤ ids.length := by
  intro ids page h
  match ids with
  | [] => simp [splitServer, Resp.isTooLarge] at h
  | [i] => simp [splitServer, Resp.isTooLarge] at h
  | a :: b :: t => simp only [List.length_cons]; omega

/-! ## Claim theorems -/

/-- Claim C1: On an HTTP 431 response, `get_resources_list` splits the id list
into `ids[:n//2]` (length `n / 2`, rounding down) and `ids[n//2:]`, fetches
each half recursively from page 1, and returns the left half's results
concatenated before the right half's; and — when whether a batch answers 431
depends only on the id list, as a header-size limit does — every successful
call's result equals the left-to-right concatenation of the paginated results
of the atomic sub-batches that eventually succeeded, independent of how the
splits nested. -/
theorem get_resources_list_split_and_concat {α : Type} (serve : Server α) :
    (∀ fuel api_resource ids page, serve ids page = .tooLarge →
      get_resources_list serve (fuel + 1) api_resource ids page =
        append_fetch_results
          (get_resources_list serve fuel api_resource (ids.take (ids.length / 2)) 1)
          (get_resources_list serve fuel api_resource (ids.drop (ids.length / 2)) 1)) ∧
    (uniform431 serve → ∀ fuel api_resource ids res,
      get_resources_list serve fuel api_resource ids 1 = some (.ok res) →
      ∃ bs rss, atomic_batches serve fuel ids = some bs ∧
        collect_all serve fuel bs = some rss ∧ res = rss.flatten) := by
  constructor
  · intro fuel api_resource ids page hs
    rw [get_resources_list, hs]
    cases hl : get_resources_list serve fuel api_resource (ids.take (ids.length / 2)) 1 with
    | none => rfl
    | some el =>
      cases el with
      | error e => rfl
      | ok left =>
        cases hr : get_resources_list serve fuel api_resource (ids.drop (ids.length / 2)) 1 with
        | none => rfl
        | some er =>
          cases er with
          | error e => rfl
          | ok right => rfl
  · intro hu fuel api_resource ids res h
    exact get_atomic_decomp serve hu api_resource fuel ids res h

/-- Witness for C1: `splitServer` answers 431 on `[1, 2, 3]`, which splits
into `[1]` and `[2, 3]`, and `[2, 3]` again into `[2]` and `[3]`; the final
result `[1, 2, 3]` is the concatenation of the atomic sub-batches' pages. -/
theorem get_resources_list_split_and_concat_witness :
    ∃ bs rss, atomic_batches splitServer 4 [1, 2, 3] = some bs ∧
      collect_all splitServer 4 bs = some rss ∧ ([1, 2, 3] : List Nat) = rss.flatten :=
  (get_resources_list_split_and_concat splitServer).2 (fun _ _ => rfl) 4 "steps"
    [1, 2, 3] [1, 2, 3] (by rfl)

/-- Claim C2: The 431 batch-splitting recursion terminates for every initial id
list given the claim's implicit base case — a batch of fewer than two ids is
never answered 431 (a single-id batch still succeeds) — because each split
then strictly shrinks the id list; depth `ids.length + 1` already completes
the split recursion. -/
theorem split_recursion_terminates {α : Type} (serve : Server α)
    (htl : ∀ ids page, ((serve ids page).isTooLarge = true) → 2 ≤ ids.length) :
    ∀ ids : List Int,
      (∃ bs, atomic_batches serve (ids.length + 1) ids = some bs) ∧
      ((serve ids 1).isTooLarge = true →
        (ids.take (ids.length / 2)).length < ids.length ∧
        (ids.drop (ids.length / 2)).length < ids.length) := by
  intro ids
  constructor
  · exact atomic_batches_total serve htl (ids.length + 1) ids (by omega)
  · intro h
    have h2 := htl ids 1 h
    rw [List.length_take, List.length_drop]
    omega

/-- Witness for C2: the `[1, 2, 3]` split recursion against `splitServer`
terminates within depth 4, and the first split strictly shrinks both halves. -/
theorem split_recursion_terminates_witness :
    (∃ bs, atomic_batches splitServer 4 [1, 2, 3] = some bs) ∧
      ((splitServer [1, 2, 3] 1).isTooLarge = true →
        (([1, 2, 3] : List Int).take 1).length < 3 ∧
        (([1, 2, 3] : List Int).drop 1).length < 3) :=
  split_recursion_terminates splitServer splitServer_431_only_large [1, 2, 3]

/-- Claim C3: On a 200 response whose pagination metadata has `has_next = true`,
`get_resources_list` fetches `page + 1` with the same id set and appends that
result after the current page's items; in particular a three-page response
(`has_next` true, true, false) yields the three pages' items concatenated in
page order. -/
theorem get_resources_list_pagination {α : Type} (serve : Server α) :
    (∀ fuel api_resource ids page items, serve ids page = .ok items true →
      get_resources_list serve (fuel + 1) api_resource ids page =
        match get_resources_list serve fuel api_resource ids (page + 1) with
        | none => none
        | some (.error e) => some (.error e)
        | some (.ok rest) => some (.ok (items ++ rest))) ∧
    (∀ api_resource ids xs1 xs2 xs3,
      serve ids 1 = .ok xs1 true → serve ids 2 = .ok xs2 true →
      serve ids 3 = .ok xs3 false →
      get_resources_list serve 3 api_resource ids 1 = some (.ok (xs1 ++ xs2 ++ xs3))) := by
  constructor
  · intro fuel api_resource ids page items hs
    rw [get_resources_list, hs]
    simp
  · intro api_resource ids xs1 xs2 xs3 h1 h2 h3
    have e3 : get_resources_list serve 1 api_resource ids 3 = some (.ok xs3) := by
      rw [get_resources_list, h3]
      simp
    have e2 : get_resources_list serve 2 api_resource ids 2 = some (.ok (xs2 ++ xs3)) := by
      rw [get_resources_list, h2, e3]
      simp
    rw [get_resources_list, h1, e2]
    simp

/-- Witness for C3: against the three-page `pageServer`, the dispatcher
returns pages 1, 2 and 3 concatenated in page order. -/
theorem get_resources_list_pagination_witness :
    get_resources_list pageServer 3 "steps" [5] 1 = some (.ok [1, 2, 3]) :=
  (get_resources_list_pagination pageServer).2 "steps" [5] [1] [2] [3] rfl rfl rfl

/-- Claim C7: A status other than 200 and 431 makes `get_resources_list` raise
`ResourceAcquisitionFailure` carrying the resource type and the status code;
and a dispatcher failure while resolving any week aborts the entire hierarchy
resolution: even when every earlier week already resolved, the caller sees
the dispatcher's error and no partial per-week output. -/
theorem dispatcher_failure_aborts :
    (∀ (α : Type) (serve : Server α) fuel api_resource ids page c,
      serve ids page = .err c →
      get_resources_list serve (fuel + 1) api_resource ids page =
        some (.error (.resourceAcquisitionFailure api_resource c))) ∧
    (∀ (d : ResolverDispatcher) (course_id : Int) (week_ids : List Int)
        (all_unit_ids : List (List Int)) (j : Nat) (u : List Int) (e : DispatchError),
      d.get_list_of_week_ids course_id = .ok week_ids →
      d.get_lists_of_units week_ids = .ok all_unit_ids →
      (∀ wn, 1 ≤ wn → wn < j →
        ∃ u' v, all_unit_ids[wn - 1]? = some u' ∧ resolve_week d u' = .ok v) →
      1 ≤ j → j ≤ week_ids.length →
      all_unit_ids[j - 1]? = some u →
      resolve_week d u = .error e →
      get_course_videos_urls_by_section d course_id none = .error (.dispatch e)) := by
  constructor
  · intro α serve fuel api_resource ids page c hs
    rw [get_resources_list, hs]
  · intro d course_id week_ids all_unit_ids j u e h1 h2 hpre hj1 hjk hu hv
    simp only [get_course_videos_urls_by_section, h1, h2]
    rw [range'_split_at j week_ids.length hj1 hjk]
    apply week_loop_none_append_error
    · intro wn hwn
      simp only [List.mem_range'_1] at hwn
      exact hpre wn hwn.1 (by omega)
    · rw [week_loop]
      simp only [week_filtered_out, Bool.false_eq_true, if_false, hu, hv]

/-- Witness for C7: `errServer` makes the dispatcher raise
`ResourceAcquisitionFailure("steps", 404)`, and against `failingDispatcher`
(week 1 resolves, week 2's step fetch fails) the whole resolution returns
that dispatcher error with no partial output. -/
theorem dispatcher_failure_aborts_witness :
    get_resources_list errServer 1 "steps" [7] 1 =
      some (.error (.resourceAcquisitionFailure "steps" 404)) ∧
    get_course_videos_urls_by_section failingDispatcher 5 none =
      .error (.dispatch (.resourceAcquisitionFailure "steps" 404)) := by
  constructor
  · exact dispatcher_failure_aborts.1 Nat errServer 0 "steps" [7] 1 404 rfl
  · exact dispatcher_failure_aborts.2 failingDispatcher 5 [10, 20] [[100], [200]] 2 [200]
      (.resourceAcquisitionFailure "steps" 404) rfl rfl
      (by
        intro wn h1 h2
        have : wn = 1 := by omega
        subst this
        exact ⟨[100], [], rfl, rfl⟩)
      (by omega) (by decide) rfl rfl

/-- Claim C4: Resolving a course with `k` sections without a week filter
returns exactly one video list per section, in section order (`k` lists for
week numbers 1..k); a week whose steps contain zero videos appears as its
(possibly empty) list rather than being dropped. -/
theorem resolver_week_alignment (d : ResolverDispatcher) (course_id : Int)
    (week_ids : List Int) (all_unit_ids : List (List Int))
    (vs : Nat → List StepikVideoUrl)
    (h1 : d.get_list_of_week_ids course_id = .ok week_ids)
    (h2 : d.get_lists_of_units week_ids = .ok all_unit_ids)
    (hres : ∀ wn, 1 ≤ wn → wn ≤ week_ids.length →
      ∃ u, all_unit_ids[wn - 1]? = some u ∧ resolve_week d u = .ok (vs wn)) :
    get_course_videos_urls_by_section d course_id none =
      .ok ((List.range' 1 week_ids.length).map vs) ∧
    ((List.range' 1 week_ids.length).map vs).length = week_ids.length := by
  constructor
  · simp only [get_course_videos_urls_by_section, h1, h2]
    apply week_loop_all_ok
    · intro wn _
      rfl
    · intro wn hwn
      simp only [List.mem_range'_1] at hwn
      exact hres wn hwn.1 (by omega)
  · simp

/-- Witness for C4: the two-week course resolves to exactly two lists — week
1's single video and week 2's empty list, which is kept, not dropped. -/
theorem resolver_week_alignment_witness :
    get_course_videos_urls_by_section twoWeekDispatcher 5 none =
      .ok [[⟨[⟨"720", "U"⟩]⟩], []] ∧ (2 : Nat) = 2 := by
  have h := resolver_week_alignment twoWeekDispatcher 5 [10, 20] [[100], [200]]
    (fun wn => if wn = 1 then [⟨[⟨"720", "U"⟩]⟩] else []) rfl rfl
    (by
      intro wn h1 h2
      simp only [List.length_cons, List.length_nil] at h2
      interval_cases wn
      · exact ⟨[100], rfl, rfl⟩
      · exact ⟨[200], rfl, rfl⟩)
  exact ⟨h.1, rfl⟩

/-- Claim C10: With a week filter `w` over a course with `k` sections: when
`1 ≤ w ≤ k` the resolver returns a list of exactly one week-list (only week
`w`'s videos), so week `w` sits at position 1 of the returned sequence
regardless of `w`; when `w` is outside `1..k` it returns the empty list.
Skipped weeks leave no empty placeholder lists. -/
theorem resolver_week_filter (d : ResolverDispatcher) (course_id : Int) (w : Int)
    (week_ids : List Int) (all_unit_ids : List (List Int))
    (h1 : d.get_list_of_week_ids course_id = .ok week_ids)
    (h2 : d.get_lists_of_units week_ids = .ok all_unit_ids) :
    (∀ u v, 1 ≤ w → w ≤ (week_ids.length : Int) →
      all_unit_ids[w.toNat - 1]? = some u → resolve_week d u = .ok v →
      get_course_videos_urls_by_section d course_id (some w) = .ok [v]) ∧
    ((w < 1 ∨ (week_ids.length : Int) < w) →
      get_course_videos_urls_by_section d course_id (some w) = .ok []) := by
  constructor
  · intro u v hw1 hwk hu hv
    simp only [get_course_videos_urls_by_section, h1, h2]
    have hw1' : 1 ≤ w.toNat := by omega
    have hwk' : w.toNat ≤ week_ids.length := by omega
    have hcast : (w.toNat : Int) = w := by omega
    rw [range'_split_at w.toNat week_ids.length hw1' hwk']
    rw [week_loop_skip d all_unit_ids (some w) _ _ (by
      intro wn hwn
      simp only [List.mem_range'_1] at hwn
      simp only [week_filtered_out, bne_iff_ne, ne_eq, decide_eq_true_eq]
      omega)]
    rw [week_loop]
    have hfal : week_filtered_out (some w) w.toNat = false := by
      simp only [week_filtered_out, hcast, bne_self_eq_false]
    rw [hfal]
    simp only [Bool.false_eq_true, if_false, hu, hv]
    rw [week_loop_all_skipped d all_unit_ids (some w) _ (by
      intro wn hwn
      simp only [List.mem_range'_1] at hwn
      simp only [week_filtered_out, bne_iff_ne, ne_eq, decide_eq_true_eq]
      omega)]
  · intro hout
    simp only [get_course_videos_urls_by_section, h1, h2]
    apply week_loop_all_skipped
    intro wn hwn
    simp only [List.mem_range'_1] at hwn
    simp only [week_filtered_out, bne_iff_ne, ne_eq, decide_eq_true_eq]
    omega

/-- Witness for C10: filtering the two-week course to week 2 returns the one
week-list `[[]]` (week 2 has no videos and still sits at position 1), and
filtering to the out-of-range week 5 returns `[]`. -/
theorem resolver_week_filter_witness :
    get_course_videos_urls_by_section twoWeekDispatcher 5 (some 2) = .ok [[]] ∧
    get_course_videos_urls_by_section twoWeekDispatcher 5 (some 5) = .ok [] :=
  ⟨(resolver_week_filter twoWeekDispatcher 5 2 [10, 20] [[100], [200]] rfl rfl).1
      [200] [] (by decide) (by decide) rfl rfl,
   (resolver_week_filter twoWeekDispatcher 5 5 [10, 20] [[100], [200]] rfl rfl).2
      (Or.inr (by decide))⟩

/-- Claim C9: A step whose block has its video field absent or falsy is
excluded from the week's output without faulting, contributing nothing, and
every remaining step's video quality/URL list is extracted in step order:
the resolver's filter-then-extract equals one order-preserving `filterMap`
over the fetched step list. -/
theorem extract_week_videos_filterMap (all_steps_data : List StepData) :
    extract_week_videos all_steps_data =
      all_steps_data.filterMap
        (fun s => s.block.video.map fun v => StepikVideoUrl.mk v.urls) := by
  induction all_steps_data with
  | nil => rfl
  | cons s rest ih =>
    cases hv : s.block.video with
    | none =>
      simpa [extract_week_videos, step_has_video, hv, List.filterMap_cons] using ih
    | some v =>
      simpa [extract_week_videos, step_has_video, hv, List.filterMap_cons] using ih

/-- Claim C5: For a non-empty ordered quality list and a requested quality
label: when a record's quality equals the request exactly, the selection loop
returns that (first such) record's URL with no warning; when no record
matches, it returns the first record's URL with the warning naming the
unavailable requested quality — no closest-quality heuristic.  The final
conjunct ties the scan to the existence of an exact match. -/
theorem pick_video_link_exact_or_first (available_qualities : List QualityRecord)
    (quality : String) (hne : available_qualities ≠ []) :
    (∀ link, available_qualities.find? (fun l => l.quality == quality) = some link →
      pick_video_link available_qualities quality = some ⟨link.url, none⟩) ∧
    (available_qualities.find? (fun l => l.quality == quality) = none →
      pick_video_link available_qualities quality =
        some ⟨(available_qualities.head hne).url, some (quality_warning quality)⟩) ∧
    (available_qualities.find? (fun l => l.quality == quality) = none ↔
      ∀ l ∈ available_qualities, l.quality ≠ quality) := by
  refine ⟨?_, ?_, ?_⟩
  · intro link h
    rw [pick_video_link.eq_def, h]
  · intro h
    rw [pick_video_link.eq_def, h]
    cases available_qualities with
    | nil => exact absurd rfl hne
    | cons a as => rfl
  · rw [List.find?_eq_none]
    simp

/-- Witness for C5 (the spec's own example): qualities `360 → A, 720 → B`
with request `1080` select URL `A` with the warning naming `1080`. -/
theorem pick_video_link_exact_or_first_witness :
    pick_video_link [⟨"360", "A"⟩, ⟨"720", "B"⟩] "1080" =
      some ⟨"A", some (quality_warning "1080")⟩ :=
  (pick_video_link_exact_or_first [⟨"360", "A"⟩, ⟨"720", "B"⟩] "1080"
    (by decide)).2.1 (by decide)

/-- Claim C6: Applied to a video with an empty quality list, the selection loop
of `main` finds no match and its fallback evaluates
`video.available_qualities[0]`, an out-of-bounds access (Python raises an
uncaught `IndexError`), modelled here as the faulting result `none`: the
program has no `NoQualityAvailable` error to raise, contradicting the claim
that the failure is an explicit, per-video error. -/
theorem pick_video_link_empty_faults (quality : String) :
    pick_video_link [] quality = none := rfl

/-- Claim C8: Token exchange in the `Authenticator` constructor: status 200
with a JSON body containing `access_token` yields that token string; status
401 raises `WrongCredentials`; any other non-200 status raises
`AuthenticationFailure` carrying the status code. -/
theorem authenticate_status_taxonomy :
    (∀ body token, body.lookup "access_token" = some token →
      authenticate 200 body = some (.ok token)) ∧
    (∀ body, authenticate 401 body =
      some (.error (.wrongCredentials "Wrong client_id or client_secret"))) ∧
    (∀ body c, c ≠ 200 → c ≠ 401 →
      authenticate c body =
        some (.error (.authenticationFailure
          ("Server responded with code " ++ toString c)))) := by
  refine ⟨?_, ?_, ?_⟩
  · intro body token h
    simp [authenticate, h]
  · intro body
    rfl
  · intro body c h200 h401
    unfold authenticate
    split
    · exact absurd rfl h200
    · exact absurd rfl h401
    · rfl

/-- Witness for C8: a 200 body with `access_token = "tok"` yields `"tok"`;
401 yields `WrongCredentials`; 500 yields `AuthenticationFailure` naming
code 500. -/
theorem authenticate_status_taxonomy_witness :
    authenticate 200 [("access_token", "tok")] = some (.ok "tok") ∧
    authenticate 401 [] =
      some (.error (.wrongCredentials "Wrong client_id or client_secret")) ∧
    authenticate 500 [] =
      some (.error (.authenticationFailure
        ("Server responded with code " ++ toString (500 : Nat)))) :=
  ⟨authenticate_status_taxonomy.1 [("access_token", "tok")] "tok" rfl,
   authenticate_status_taxonomy.2.1 [],
   authenticate_status_taxonomy.2.2 [] 500 (by decide) (by decide)⟩

end Stepik
